import Mathlib

/-!
Shallow embedding of the todo-list CRUD service implemented twice
(src/FastAPI/main.py and src/Flask/main.py) and of the load-test
harness summary statistics (src/Flask/locustfile.py).

Both services keep a process-local ordered list of todo records and
serve get/list/create/update/toggle/delete by a linear scan comparing
ids.  The handlers are modelled as pure functions from the store (a
Lean list) and the request data to the new store plus the HTTP status
code they answer with.
-/

/-- Result of a create handler: HTTP 201 with the new store and the
echoed todo, or HTTP 400 when the id collides with a stored record. -/
inductive CreateResult (τ : Type) where
  | created (todos : List τ) (todo : τ)
  | conflict
deriving DecidableEq, Repr

/-- Python list.remove: drop the first element equal to x, keep the
rest.  Both delete handlers call it on the record found by the scan. -/
def removeFirst {α : Type} [DecidableEq α] (x : α) : List α → List α
  | [] => []
  | y :: rest => if y = x then rest else y :: removeFirst x rest

namespace FastAPIApp

/-- Todo model of FastAPI/main.py.  Pydantic validation means every
parsed body carries an integer id, a string item, and a completed flag
that defaults to false when absent from the JSON body. -/
structure Todo where
  id : Int
  item : String
  completed : Bool
deriving DecidableEq, Repr

/-- The duplicate-id scan inside create_todo: a linear scan that stops
at the first stored record whose id equals i. -/
def hasId (todos : List Todo) (i : Int) : Bool :=
  match todos with
  | [] => false
  | t :: rest => if t.id = i then true else hasId rest i

/-- GET /todos/{todo_id}: linear scan, first record whose id matches is
returned; none models the 404 branch. -/
def get_todo (todos : List Todo) (todo_id : Int) : Option Todo :=
  match todos with
  | [] => none
  | t :: rest => if t.id = todo_id then some t else get_todo rest todo_id

/-- GET /todos: returns the whole ordered store. -/
def get_todos (todos : List Todo) : List Todo :=
  todos

/-- POST /todos: reject when a stored record already has the body's id,
otherwise append the new todo and echo it. -/
def create_todo (todos : List Todo) (todo : Todo) : CreateResult Todo :=
  if hasId todos todo.id then CreateResult.conflict
  else CreateResult.created (todos ++ [todo]) todo

/-- PUT /todos/{todo_id}: find the first record whose id matches the
path id, overwrite its item and completed with the body's values (the
body's id is never read), echo the mutated record; none models 404. -/
def update_todo (todos : List Todo) (todo_id : Int) (todo_obj : Todo) :
    Option (List Todo × Todo) :=
  match todos with
  | [] => none
  | t :: rest =>
    if t.id = todo_id then
      let t2 : Todo := { t with item := todo_obj.item, completed := todo_obj.completed }
      some (t2 :: rest, t2)
    else
      match update_todo rest todo_id todo_obj with
      | some (l, u) => some (t :: l, u)
      | none => none

/-- PATCH /todos/{todo_id}/complete: flip completed on the first record
whose id matches, echo it; none models 404. -/
def toggle_complete (todos : List Todo) (todo_id : Int) :
    Option (List Todo × Todo) :=
  match todos with
  | [] => none
  | t :: rest =>
    if t.id = todo_id then
      let t2 : Todo := { t with completed := !t.completed }
      some (t2 :: rest, t2)
    else
      match toggle_complete rest todo_id with
      | some (l, u) => some (t :: l, u)
      | none => none

/-- DELETE /todos/{todo_id}: the loop finds the first record whose id
matches (same scan as get_todo) and calls todos.remove on it; none
models 404. -/
def delete_todo (todos : List Todo) (todo_id : Int) : Option (List Todo) :=
  match get_todo todos todo_id with
  | some t => some (removeFirst t todos)
  | none => none

/-- One HTTP request against the FastAPI service (bodies are full Todo
records, as pydantic enforces). -/
inductive Req where
  | get (todo_id : Int)
  | create (todo : Todo)
  | update (todo_id : Int) (body : Todo)
  | toggle (todo_id : Int)
  | delete (todo_id : Int)
deriving DecidableEq, Repr

/-- Dispatch one request: new store plus the HTTP status code of the
response (200/201/204 on success, 400 on duplicate create, 404 on a
missed scan). -/
def apply (todos : List Todo) : Req → List Todo × Nat
  | Req.get i =>
    match get_todo todos i with
    | some _ => (todos, 200)
    | none => (todos, 404)
  | Req.create t =>
    match create_todo todos t with
    | CreateResult.created l _ => (l, 201)
    | CreateResult.conflict => (todos, 400)
  | Req.update i b =>
    match update_todo todos i b with
    | some (l, _) => (l, 200)
    | none => (todos, 404)
  | Req.toggle i =>
    match toggle_complete todos i with
    | some (l, _) => (l, 200)
    | none => (todos, 404)
  | Req.delete i =>
    match delete_todo todos i with
    | some l => (l, 204)
    | none => (todos, 404)

/-- Run a request sequence from a store: final store and the list of
status codes answered, in order. -/
def run (todos : List Todo) : List Req → List Todo × List Nat
  | [] => (todos, [])
  | r :: rest =>
    let p := apply todos r
    let q := run p.1 rest
    (q.1, p.2 :: q.2)

end FastAPIApp

namespace FlaskApp

/-- Todo dataclass of Flask/main.py.  The create handler builds it from
request.get_json() with data.get(...), so id and item hold the JSON
null value when the field is absent from the body; completed defaults
to false. -/
structure Todo where
  id : Option Int
  item : Option String
  completed : Bool
deriving DecidableEq, Repr

/-- JSON body of a Flask create request: each field may be absent. -/
structure CreateBody where
  id : Option Int
  item : Option String
  completed : Option Bool
deriving DecidableEq, Repr

/-- JSON body of a Flask update request: each field may be absent.  The
id field is carried by full bodies but never read by update_todo. -/
structure UpdateBody where
  id : Option Int
  item : Option String
  completed : Option Bool
deriving DecidableEq, Repr

/-- The duplicate-id scan inside create_todo, comparing stored ids
(possibly null) against data.get('id') (null when absent). -/
def hasId (todos : List Todo) (i : Option Int) : Bool :=
  match todos with
  | [] => false
  | t :: rest => if t.id = i then true else hasId rest i

/-- GET /todos/<int:todo_id>: the route converter guarantees an integer
path id; linear scan for the first record whose id equals it. -/
def get_todo (todos : List Todo) (todo_id : Int) : Option Todo :=
  match todos with
  | [] => none
  | t :: rest => if t.id = some todo_id then some t else get_todo rest todo_id

/-- GET /todos: returns the whole ordered store. -/
def get_todos (todos : List Todo) : List Todo :=
  todos

/-- The record create_todo builds: Todo(id=data.get('id'),
item=data.get('item'), completed=data.get('completed', False)). -/
def todoOfBody (data : CreateBody) : Todo :=
  { id := data.id, item := data.item, completed := data.completed.getD false }

/-- POST /todos: reject when a stored record's id equals data.get('id'),
otherwise append the new record and echo it. -/
def create_todo (todos : List Todo) (data : CreateBody) : CreateResult Todo :=
  if hasId todos data.id then CreateResult.conflict
  else CreateResult.created (todos ++ [todoOfBody data]) (todoOfBody data)

/-- PUT /todos/<int:todo_id>: find the first record whose id matches,
then todo.item = data.get('item', todo.item) and todo.completed =
data.get('completed', todo.completed): fields absent from the body keep
the record's old value; none models 404. -/
def update_todo (todos : List Todo) (todo_id : Int) (data : UpdateBody) :
    Option (List Todo × Todo) :=
  match todos with
  | [] => none
  | t :: rest =>
    if t.id = some todo_id then
      let t2 : Todo :=
        { t with
          item := match data.item with
                  | some v => some v
                  | none => t.item,
          completed := data.completed.getD t.completed }
      some (t2 :: rest, t2)
    else
      match update_todo rest todo_id data with
      | some (l, u) => some (t :: l, u)
      | none => none

/-- PATCH /todos/<int:todo_id>/complete: flip completed on the first
record whose id matches, echo it; none models 404. -/
def toggle_complete (todos : List Todo) (todo_id : Int) :
    Option (List Todo × Todo) :=
  match todos with
  | [] => none
  | t :: rest =>
    if t.id = some todo_id then
      let t2 : Todo := { t with completed := !t.completed }
      some (t2 :: rest, t2)
    else
      match toggle_complete rest todo_id with
      | some (l, u) => some (t :: l, u)
      | none => none

/-- DELETE /todos/<int:todo_id>: the loop finds the first record whose
id matches (same scan as get_todo) and calls todos.remove on it; none
models 404. -/
def delete_todo (todos : List Todo) (todo_id : Int) : Option (List Todo) :=
  match get_todo todos todo_id with
  | some t => some (removeFirst t todos)
  | none => none

/-- One HTTP request against the Flask service; bodies are raw JSON
dictionaries, so every field may be absent. -/
inductive Req where
  | get (todo_id : Int)
  | create (body : CreateBody)
  | update (todo_id : Int) (body : UpdateBody)
  | toggle (todo_id : Int)
  | delete (todo_id : Int)
deriving DecidableEq, Repr

/-- Dispatch one request: new store plus the HTTP status code answered
(the Flask delete handler also answers 204 on success). -/
def apply (todos : List Todo) : Req → List Todo × Nat
  | Req.get i =>
    match get_todo todos i with
    | some _ => (todos, 200)
    | none => (todos, 404)
  | Req.create d =>
    match create_todo todos d with
    | CreateResult.created l _ => (l, 201)
    | CreateResult.conflict => (todos, 400)
  | Req.update i d =>
    match update_todo todos i d with
    | some (l, _) => (l, 200)
    | none => (todos, 404)
  | Req.toggle i =>
    match toggle_complete todos i with
    | some (l, _) => (l, 200)
    | none => (todos, 404)
  | Req.delete i =>
    match delete_todo todos i with
    | some l => (l, 204)
    | none => (todos, 404)

/-- Run a request sequence from a store: final store and the list of
status codes answered, in order. -/
def run (todos : List Todo) : List Req → List Todo × List Nat
  | [] => (todos, [])
  | r :: rest =>
    let p := apply todos r
    let q := run p.1 rest
    (q.1, p.2 :: q.2)

end FlaskApp

/-- Injection of a FastAPI record into the Flask representation: both
fields present. -/
def todoToFlask (t : FastAPIApp.Todo) : FlaskApp.Todo :=
  { id := some t.id, item := some t.item, completed := t.completed }

/-- A FastAPI request re-sent to the Flask service: bodies carry every
field (full Todo bodies). -/
def reqToFlask : FastAPIApp.Req → FlaskApp.Req
  | FastAPIApp.Req.get i => FlaskApp.Req.get i
  | FastAPIApp.Req.create t =>
    FlaskApp.Req.create { id := some t.id, item := some t.item, completed := some t.completed }
  | FastAPIApp.Req.update i b =>
    FlaskApp.Req.update i { id := some b.id, item := some b.item, completed := some b.completed }
  | FastAPIApp.Req.toggle i => FlaskApp.Req.toggle i
  | FastAPIApp.Req.delete i => FlaskApp.Req.delete i

namespace Locustfile

/-- One metric sample, as the dictionary built by
PerformanceMetricsCollector.add_metric (the timestamp is irrelevant to
the summary and omitted).  Wall-clock quantities are modelled as
rationals. -/
structure Metric where
  request_type : String
  name : String
  response_time : ℚ
  response_length : Nat
  response_code : Nat
  concurrent_users : Nat
  success : Bool
deriving DecidableEq, Repr

/-- The figures printed by PerformanceMetricsCollector._print_summary. -/
structure Summary where
  totalRequests : Nat
  successfulRequests : Nat
  failedRequests : Nat
  averageResponseTime : ℚ
  minResponseTime : ℚ
  maxResponseTime : ℚ
  throughput : ℚ
deriving DecidableEq, Repr

/-- Python min over a list (the summary only calls it on a non-empty
list; the empty case is arbitrary). -/
def listMin : List ℚ → ℚ
  | [] => 0
  | x :: rest => rest.foldl min x

/-- Python max over a list (the summary only calls it on a non-empty
list; the empty case is arbitrary). -/
def listMax : List ℚ → ℚ
  | [] => 0
  | x :: rest => rest.foldl max x

/-- PerformanceMetricsCollector._print_summary: successful requests are
the samples whose success flag is set, failed requests are total minus
successful, average is sum of response times over their count, and
throughput is the sample count divided by the elapsed test duration. -/
def print_summary (metrics : List Metric) (test_duration : ℚ) : Summary :=
  let response_times := metrics.map (fun m => m.response_time)
  let successful_requests := metrics.filter (fun m => m.success)
  { totalRequests := metrics.length
    successfulRequests := successful_requests.length
    failedRequests := metrics.length - successful_requests.length
    averageResponseTime := response_times.sum / (response_times.length : ℚ)
    minResponseTime := listMin response_times
    maxResponseTime := listMax response_times
    throughput := (metrics.length : ℚ) / test_duration }

end Locustfile

/-! ## Generic list lemmas -/

theorem removeFirst_sublist {α : Type} [DecidableEq α] (x : α) :
    ∀ l : List α, List.Sublist (removeFirst x l) l := by
  intro l
  induction l with
  | nil => simp [removeFirst]
  | cons y rest ih =>
    by_cases h : y = x
    · simp [removeFirst, h]
    · simp [removeFirst, h]
      exact ih

namespace FastAPIApp

/-! ## Scan characterizations -/

theorem hasId_iff (todos : List Todo) (i : Int) :
    hasId todos i = true ↔ ∃ t ∈ todos, t.id = i := by
  induction todos with
  | nil => simp [hasId]
  | cons t rest ih =>
    by_cases h : t.id = i
    · simp [hasId, h]
    · simp [hasId, h, ih]

theorem hasId_eq_false_iff (todos : List Todo) (i : Int) :
    hasId todos i = false ↔ ∀ t ∈ todos, t.id ≠ i := by
  rw [← Bool.not_eq_true, hasId_iff]
  push_neg
  rfl

theorem get_todo_eq_none_iff (todos : List Todo) (i : Int) :
    get_todo todos i = none ↔ ∀ t ∈ todos, t.id ≠ i := by
  induction todos with
  | nil => simp [get_todo]
  | cons t rest ih =>
    by_cases h : t.id = i
    · simp [get_todo, h]
    · simp [get_todo, h, ih]

theorem get_todo_mem_and_id (todos : List Todo) (i : Int) (t : Todo)
    (h : get_todo todos i = some t) : t ∈ todos ∧ t.id = i := by
  induction todos with
  | nil => simp [get_todo] at h
  | cons x rest ih =>
    by_cases hx : x.id = i
    · simp [get_todo, hx] at h
      subst h
      exact ⟨List.mem_cons_self x rest, hx⟩
    · simp [get_todo, hx] at h
      rcases ih h with ⟨hm, hi⟩
      exact ⟨List.mem_cons_of_mem x hm, hi⟩

theorem update_todo_eq_none_iff (todos : List Todo) (i : Int) (b : Todo) :
    update_todo todos i b = none ↔ get_todo todos i = none := by
  induction todos with
  | nil => simp [update_todo, get_todo]
  | cons t rest ih =>
    by_cases h : t.id = i
    · simp [update_todo, get_todo, h]
    · simp only [update_todo, get_todo, if_neg h]
      rcases hrec : update_todo rest i b with _ | ⟨l, u⟩
      · simpa [hrec] using ih.mp hrec
      · simp only [hrec]
        constructor
        · intro hc
          exact absurd hc (by simp)
        · intro hc
          rw [ih.mpr hc] at hrec
          exact absurd hrec (by simp)

theorem toggle_complete_eq_none_iff (todos : List Todo) (i : Int) :
    toggle_complete todos i = none ↔ get_todo todos i = none := by
  induction todos with
  | nil => simp [toggle_complete, get_todo]
  | cons t rest ih =>
    by_cases h : t.id = i
    · simp [toggle_complete, get_todo, h]
    · simp only [toggle_complete, get_todo, if_neg h]
      rcases hrec : toggle_complete rest i with _ | ⟨l, u⟩
      · simpa [hrec] using ih.mp hrec
      · simp only [hrec]
        constructor
        · intro hc
          exact absurd hc (by simp)
        · intro hc
          rw [ih.mpr hc] at hrec
          exact absurd hrec (by simp)

/-! ## Id preservation of the mutating handlers -/

theorem update_todo_ids (todos : List Todo) (i : Int) (b : Todo) :
    ∀ l u, update_todo todos i b = some (l, u) →
      l.map Todo.id = todos.map Todo.id := by
  induction todos with
  | nil => intro l u h; simp [update_todo] at h
  | cons t rest ih =>
    intro l u h
    by_cases hx : t.id = i
    · simp [update_todo, hx] at h
      rcases h with ⟨h1, h2⟩
      simp [← h1, hx]
    · simp only [update_todo, if_neg hx] at h
      rcases hrec : update_todo rest i b with _ | ⟨l', u'⟩
      · simp [hrec] at h
      · simp [hrec] at h
        rcases h with ⟨h1, h2⟩
        simp [← h1, ih l' u' hrec]

theorem toggle_complete_ids (todos : List Todo) (i : Int) :
    ∀ l u, toggle_complete todos i = some (l, u) →
      l.map Todo.id = todos.map Todo.id := by
  induction todos with
  | nil => intro l u h; simp [toggle_complete] at h
  | cons t rest ih =>
    intro l u h
    by_cases hx : t.id = i
    · simp [toggle_complete, hx] at h
      rcases h with ⟨h1, h2⟩
      simp [← h1, hx]
    · simp only [toggle_complete, if_neg hx] at h
      rcases hrec : toggle_complete rest i with _ | ⟨l', u'⟩
      · simp [hrec] at h
      · simp [hrec] at h
        rcases h with ⟨h1, h2⟩
        simp [← h1, ih l' u' hrec]

/-! ## The uniqueness invariant is preserved by every request -/

theorem apply_nodup (todos : List Todo) (r : Req)
    (h : (todos.map Todo.id).Nodup) :
    ((apply todos r).1.map Todo.id).Nodup := by
  cases r with
  | get i =>
    rcases hg : get_todo todos i with _ | t <;> simp [apply, hg, h]
  | create t =>
    by_cases hc : hasId todos t.id
    · simp [apply, create_todo, hc, h]
    · simp only [apply, create_todo, if_neg hc]
      have hnotin : t.id ∉ todos.map Todo.id := by
        rw [Bool.not_eq_true] at hc
        intro hmem
        rcases List.mem_map.mp hmem with ⟨e, he, heid⟩
        exact (hasId_eq_false_iff todos t.id).mp hc e he heid
      simp [List.nodup_append, h, hnotin]
  | update i b =>
    rcases hu : update_todo todos i b with _ | ⟨l, u⟩
    · simp [apply, hu, h]
    · simp only [apply, hu]
      rw [update_todo_ids todos i b l u hu]
      exact h
  | toggle i =>
    rcases ht : toggle_complete todos i with _ | ⟨l, u⟩
    · simp [apply, ht, h]
    · simp only [apply, ht]
      rw [toggle_complete_ids todos i l u ht]
      exact h
  | delete i =>
    rcases hd : delete_todo todos i with _ | l
    · simp [apply, hd, h]
    · simp only [apply, hd]
      rcases hg : get_todo todos i with _ | t
      · simp [delete_todo, hg] at hd
      · simp [delete_todo, hg] at hd
        subst hd
        exact h.sublist (List.Sublist.map Todo.id (removeFirst_sublist t todos))

theorem run_nodup (reqs : List Req) (todos : List Todo)
    (h : (todos.map Todo.id).Nodup) :
    (((run todos reqs).1).map Todo.id).Nodup := by
  induction reqs generalizing todos with
  | nil => simpa [run] using h
  | cons r rest ih =>
    simp only [run]
    exact ih (apply todos r).1 (apply_nodup todos r h)

end FastAPIApp

namespace FlaskApp

/-! ## Scan characterizations (Flask) -/

theorem flask_hasId_iff (todos : List Todo) (i : Option Int) :
    hasId todos i = true ↔ ∃ t ∈ todos, t.id = i := by
  induction todos with
  | nil => simp [hasId]
  | cons t rest ih =>
    by_cases h : t.id = i
    · simp [hasId, h]
    · simp [hasId, h, ih]

theorem flask_hasId_eq_false_iff (todos : List Todo) (i : Option Int) :
    hasId todos i = false ↔ ∀ t ∈ todos, t.id ≠ i := by
  rw [← Bool.not_eq_true, flask_hasId_iff]
  push_neg
  rfl

theorem flask_get_todo_eq_none_iff (todos : List Todo) (i : Int) :
    get_todo todos i = none ↔ ∀ t ∈ todos, t.id ≠ some i := by
  induction todos with
  | nil => simp [get_todo]
  | cons t rest ih =>
    by_cases h : t.id = some i
    · simp [get_todo, h]
    · simp [get_todo, h, ih]

theorem flask_get_todo_mem_and_id (todos : List Todo) (i : Int) (t : Todo)
    (h : get_todo todos i = some t) : t ∈ todos ∧ t.id = some i := by
  induction todos with
  | nil => simp [get_todo] at h
  | cons x rest ih =>
    by_cases hx : x.id = some i
    · simp [get_todo, hx] at h
      subst h
      exact ⟨List.mem_cons_self x rest, hx⟩
    · simp [get_todo, hx] at h
      rcases ih h with ⟨hm, hi⟩
      exact ⟨List.mem_cons_of_mem x hm, hi⟩

theorem flask_update_todo_eq_none_iff (todos : List Todo) (i : Int) (d : UpdateBody) :
    update_todo todos i d = none ↔ get_todo todos i = none := by
  induction todos with
  | nil => simp [update_todo, get_todo]
  | cons t rest ih =>
    by_cases h : t.id = some i
    · simp [update_todo, get_todo, h]
    · simp only [update_todo, get_todo, if_neg h]
      rcases hrec : update_todo rest i d with _ | ⟨l, u⟩
      · simpa [hrec] using ih.mp hrec
      · simp only [hrec]
        constructor
        · intro hc
          exact absurd hc (by simp)
        · intro hc
          rw [ih.mpr hc] at hrec
          exact absurd hrec (by simp)

theorem flask_toggle_complete_eq_none_iff (todos : List Todo) (i : Int) :
    toggle_complete todos i = none ↔ get_todo todos i = none := by
  induction todos with
  | nil => simp [toggle_complete, get_todo]
  | cons t rest ih =>
    by_cases h : t.id = some i
    · simp [toggle_complete, get_todo, h]
    · simp only [toggle_complete, get_todo, if_neg h]
      rcases hrec : toggle_complete rest i with _ | ⟨l, u⟩
      · simpa [hrec] using ih.mp hrec
      · simp only [hrec]
        constructor
        · intro hc
          exact absurd hc (by simp)
        · intro hc
          rw [ih.mpr hc] at hrec
          exact absurd hrec (by simp)

/-! ## Id preservation of the mutating handlers (Flask) -/

theorem flask_update_todo_ids (todos : List Todo) (i : Int) (d : UpdateBody) :
    ∀ l u, update_todo todos i d = some (l, u) →
      l.map Todo.id = todos.map Todo.id := by
  induction todos with
  | nil => intro l u h; simp [update_todo] at h
  | cons t rest ih =>
    intro l u h
    by_cases hx : t.id = some i
    · simp [update_todo, hx] at h
      rcases h with ⟨h1, h2⟩
      simp [← h1, hx]
    · simp only [update_todo, if_neg hx] at h
      rcases hrec : update_todo rest i d with _ | ⟨l', u'⟩
      · simp [hrec] at h
      · simp [hrec] at h
        rcases h with ⟨h1, h2⟩
        simp [← h1, ih l' u' hrec]

theorem flask_toggle_complete_ids (todos : List Todo) (i : Int) :
    ∀ l u, toggle_complete todos i = some (l, u) →
      l.map Todo.id = todos.map Todo.id := by
  induction todos with
  | nil => intro l u h; simp [toggle_complete] at h
  | cons t rest ih =>
    intro l u h
    by_cases hx : t.id = some i
    · simp [toggle_complete, hx] at h
      rcases h with ⟨h1, h2⟩
      simp [← h1, hx]
    · simp only [toggle_complete, if_neg hx] at h
      rcases hrec : toggle_complete rest i with _ | ⟨l', u'⟩
      · simp [hrec] at h
      · simp [hrec] at h
        rcases h with ⟨h1, h2⟩
        simp [← h1, ih l' u' hrec]

/-! ## The uniqueness invariant is preserved by every request (Flask) -/

theorem flask_apply_nodup (todos : List Todo) (r : Req)
    (h : (todos.map Todo.id).Nodup) :
    ((apply todos r).1.map Todo.id).Nodup := by
  cases r with
  | get i =>
    rcases hg : get_todo todos i with _ | t <;> simp [apply, hg, h]
  | create d =>
    by_cases hc : hasId todos d.id
    · simp [apply, create_todo, hc, h]
    · simp only [apply, create_todo, if_neg hc]
      have hnotin : (todoOfBody d).id ∉ todos.map Todo.id := by
        rw [Bool.not_eq_true] at hc
        intro hmem
        rcases List.mem_map.mp hmem with ⟨e, he, heid⟩
        exact (flask_hasId_eq_false_iff todos d.id).mp hc e he heid
      simp [List.nodup_append, h, hnotin]
  | update i d =>
    rcases hu : update_todo todos i d with _ | ⟨l, u⟩
    · simp [apply, hu, h]
    · simp only [apply, hu]
      rw [flask_update_todo_ids todos i d l u hu]
      exact h
  | toggle i =>
    rcases ht : toggle_complete todos i with _ | ⟨l, u⟩
    · simp [apply, ht, h]
    · simp only [apply, ht]
      rw [flask_toggle_complete_ids todos i l u ht]
      exact h
  | delete i =>
    rcases hd : delete_todo todos i with _ | l
    · simp [apply, hd, h]
    · simp only [apply, hd]
      rcases hg : get_todo todos i with _ | t
      · simp [delete_todo, hg] at hd
      · simp [delete_todo, hg] at hd
        subst hd
        exact h.sublist (List.Sublist.map Todo.id (removeFirst_sublist t todos))

theorem flask_run_nodup (reqs : List Req) (todos : List Todo)
    (h : (todos.map Todo.id).Nodup) :
    (((run todos reqs).1).map Todo.id).Nodup := by
  induction reqs generalizing todos with
  | nil => simpa [run] using h
  | cons r rest ih =>
    simp only [run]
    exact ih (apply todos r).1 (flask_apply_nodup todos r h)

end FlaskApp

/-! ## Correspondence between the two implementations on full bodies -/

theorem todoToFlask_inj (a b : FastAPIApp.Todo) :
    todoToFlask a = todoToFlask b ↔ a = b := by
  cases a
  cases b
  simp [todoToFlask]

theorem hasId_map (todos : List FastAPIApp.Todo) (i : Int) :
    FlaskApp.hasId (todos.map todoToFlask) (some i) = FastAPIApp.hasId todos i := by
  induction todos with
  | nil => simp [FlaskApp.hasId, FastAPIApp.hasId]
  | cons t rest ih =>
    by_cases h : t.id = i
    · simp [FlaskApp.hasId, FastAPIApp.hasId, todoToFlask, h]
    · simp [FlaskApp.hasId, FastAPIApp.hasId, todoToFlask, h, ih]

theorem get_todo_map (todos : List FastAPIApp.Todo) (i : Int) :
    FlaskApp.get_todo (todos.map todoToFlask) i =
      (FastAPIApp.get_todo todos i).map todoToFlask := by
  induction todos with
  | nil => simp [FlaskApp.get_todo, FastAPIApp.get_todo]
  | cons t rest ih =>
    by_cases h : t.id = i
    · simp [FlaskApp.get_todo, FastAPIApp.get_todo, todoToFlask, h]
    · simp [FlaskApp.get_todo, FastAPIApp.get_todo, todoToFlask, h, ih]

theorem update_todo_map (todos : List FastAPIApp.Todo) (i : Int) (b : FastAPIApp.Todo) :
    FlaskApp.update_todo (todos.map todoToFlask) i
        { id := some b.id, item := some b.item, completed := some b.completed } =
      (FastAPIApp.update_todo todos i b).map
        (fun p => (p.1.map todoToFlask, todoToFlask p.2)) := by
  induction todos with
  | nil => simp [FlaskApp.update_todo, FastAPIApp.update_todo]
  | cons t rest ih =>
    by_cases h : t.id = i
    · simp [FlaskApp.update_todo, FastAPIApp.update_todo, todoToFlask, h]
    · simp only [List.map_cons, FlaskApp.update_todo, FastAPIApp.update_todo]
      rw [if_neg (by simp [todoToFlask, h]), if_neg h, ih]
      rcases FastAPIApp.update_todo rest i b with _ | ⟨l, u⟩ <;> simp

theorem toggle_complete_map (todos : List FastAPIApp.Todo) (i : Int) :
    FlaskApp.toggle_complete (todos.map todoToFlask) i =
      (FastAPIApp.toggle_complete todos i).map
        (fun p => (p.1.map todoToFlask, todoToFlask p.2)) := by
  induction todos with
  | nil => simp [FlaskApp.toggle_complete, FastAPIApp.toggle_complete]
  | cons t rest ih =>
    by_cases h : t.id = i
    · simp [FlaskApp.toggle_complete, FastAPIApp.toggle_complete, todoToFlask, h]
    · simp only [List.map_cons, FlaskApp.toggle_complete, FastAPIApp.toggle_complete]
      rw [if_neg (by simp [todoToFlask, h]), if_neg h, ih]
      rcases FastAPIApp.toggle_complete rest i with _ | ⟨l, u⟩ <;> simp

theorem removeFirst_map_toFlask (t : FastAPIApp.Todo) (todos : List FastAPIApp.Todo) :
    removeFirst (todoToFlask t) (todos.map todoToFlask) =
      (removeFirst t todos).map todoToFlask := by
  induction todos with
  | nil => simp [removeFirst]
  | cons y rest ih =>
    by_cases h : y = t
    · simp [removeFirst, h]
    · rw [List.map_cons]
      rw [removeFirst, if_neg (fun hc => h ((todoToFlask_inj y t).mp hc))]
      rw [removeFirst, if_neg h, List.map_cons, ih]

theorem delete_todo_map (todos : List FastAPIApp.Todo) (i : Int) :
    FlaskApp.delete_todo (todos.map todoToFlask) i =
      (FastAPIApp.delete_todo todos i).map (fun l => l.map todoToFlask) := by
  rw [FlaskApp.delete_todo, FastAPIApp.delete_todo, get_todo_map]
  rcases FastAPIApp.get_todo todos i with _ | t
  · simp
  · simp [removeFirst_map_toFlask]

theorem apply_map (todos : List FastAPIApp.Todo) (r : FastAPIApp.Req) :
    FlaskApp.apply (todos.map todoToFlask) (reqToFlask r) =
      ((FastAPIApp.apply todos r).1.map todoToFlask, (FastAPIApp.apply todos r).2) := by
  cases r with
  | get i =>
    rw [reqToFlask, FlaskApp.apply, get_todo_map]
    rcases hg : FastAPIApp.get_todo todos i with _ | t <;> simp [FastAPIApp.apply, hg]
  | create t =>
    rw [reqToFlask]
    by_cases hc : FastAPIApp.hasId todos t.id
    · simp [FlaskApp.apply, FastAPIApp.apply, FlaskApp.create_todo,
        FastAPIApp.create_todo, hasId_map, hc]
    · simp [FlaskApp.apply, FastAPIApp.apply, FlaskApp.create_todo,
        FastAPIApp.create_todo, hasId_map, hc, FlaskApp.todoOfBody, todoToFlask]
  | update i b =>
    rw [reqToFlask, FlaskApp.apply, update_todo_map]
    rcases hu : FastAPIApp.update_todo todos i b with _ | ⟨l, u⟩ <;>
      simp [FastAPIApp.apply, hu]
  | toggle i =>
    rw [reqToFlask, FlaskApp.apply, toggle_complete_map]
    rcases ht : FastAPIApp.toggle_complete todos i with _ | ⟨l, u⟩ <;>
      simp [FastAPIApp.apply, ht]
  | delete i =>
    rw [reqToFlask, FlaskApp.apply, delete_todo_map]
    rcases hd : FastAPIApp.delete_todo todos i with _ | l <;>
      simp [FastAPIApp.apply, hd]

theorem run_map (reqs : List FastAPIApp.Req) (todos : List FastAPIApp.Todo) :
    FlaskApp.run (todos.map todoToFlask) (reqs.map reqToFlask) =
      ((FastAPIApp.run todos reqs).1.map todoToFlask, (FastAPIApp.run todos reqs).2) := by
  induction reqs generalizing todos with
  | nil => simp [FlaskApp.run, FastAPIApp.run]
  | cons r rest ih =>
    simp only [List.map_cons, FlaskApp.run, FastAPIApp.run]
    rw [apply_map]
    simp only []
    rw [ih (FastAPIApp.apply todos r).1]

namespace FastAPIApp

/-! ## Frame and success characterizations -/

theorem update_todo_frame (todos : List Todo) (i : Int) (b : Todo) :
    ∀ l u, update_todo todos i b = some (l, u) →
      List.Forall₂ (fun t t2 => t2.id = t.id ∧ (t.id ≠ i → t2 = t)) todos l := by
  induction todos with
  | nil => intro l u h; simp [update_todo] at h
  | cons t rest ih =>
    intro l u h
    by_cases hx : t.id = i
    · simp [update_todo, hx] at h
      rcases h with ⟨h1, h2⟩
      rw [← h1]
      refine List.Forall₂.cons ⟨by simp [hx], fun hc => absurd hx hc⟩ ?_
      exact List.forall₂_same.mpr (fun x _ => ⟨rfl, fun _ => rfl⟩)
    · simp only [update_todo, if_neg hx] at h
      rcases hrec : update_todo rest i b with _ | ⟨l', u'⟩
      · simp [hrec] at h
      · simp [hrec] at h
        rcases h with ⟨h1, h2⟩
        rw [← h1]
        exact List.Forall₂.cons ⟨rfl, fun _ => rfl⟩ (ih l' u' hrec)

theorem toggle_complete_frame (todos : List Todo) (i : Int) :
    ∀ l u, toggle_complete todos i = some (l, u) →
      List.Forall₂ (fun t t2 => t2.id = t.id ∧ (t.id ≠ i → t2 = t)) todos l := by
  induction todos with
  | nil => intro l u h; simp [toggle_complete] at h
  | cons t rest ih =>
    intro l u h
    by_cases hx : t.id = i
    · simp [toggle_complete, hx] at h
      rcases h with ⟨h1, h2⟩
      rw [← h1]
      refine List.Forall₂.cons ⟨by simp [hx], fun hc => absurd hx hc⟩ ?_
      exact List.forall₂_same.mpr (fun x _ => ⟨rfl, fun _ => rfl⟩)
    · simp only [toggle_complete, if_neg hx] at h
      rcases hrec : toggle_complete rest i with _ | ⟨l', u'⟩
      · simp [hrec] at h
      · simp [hrec] at h
        rcases h with ⟨h1, h2⟩
        rw [← h1]
        exact List.Forall₂.cons ⟨rfl, fun _ => rfl⟩ (ih l' u' hrec)

theorem update_todo_of_get (todos : List Todo) (i : Int) (t0 : Todo)
    (h : get_todo todos i = some t0) (b : Todo) :
    ∃ l, update_todo todos i b =
        some (l, { t0 with item := b.item, completed := b.completed }) ∧
      { t0 with item := b.item, completed := b.completed } ∈ l := by
  induction todos with
  | nil => simp [get_todo] at h
  | cons t rest ih =>
    by_cases hx : t.id = i
    · simp [get_todo, hx] at h
      subst h
      refine ⟨{ t with item := b.item, completed := b.completed } :: rest, ?_, ?_⟩
      · simp [update_todo, hx]
      · exact List.mem_cons_self _ _
    · simp [get_todo, hx] at h
      rcases ih h with ⟨l, hl, hmem⟩
      exact ⟨t :: l, by simp [update_todo, hx, hl], List.mem_cons_of_mem t hmem⟩

theorem toggle_complete_of_get (todos : List Todo) (i : Int) (t0 : Todo)
    (h : get_todo todos i = some t0) :
    ∃ l, toggle_complete todos i = some (l, { t0 with completed := !t0.completed }) := by
  induction todos with
  | nil => simp [get_todo] at h
  | cons t rest ih =>
    by_cases hx : t.id = i
    · simp [get_todo, hx] at h
      subst h
      exact ⟨{ t with completed := !t.completed } :: rest, by simp [toggle_complete, hx]⟩
    · simp [get_todo, hx] at h
      rcases ih h with ⟨l, hl⟩
      exact ⟨t :: l, by simp [toggle_complete, hx, hl]⟩

theorem toggle_complete_twice (todos : List Todo) (i : Int) :
    ∀ l u, toggle_complete todos i = some (l, u) →
      toggle_complete l i = some (todos, { u with completed := !u.completed }) := by
  induction todos with
  | nil => intro l u h; simp [toggle_complete] at h
  | cons t rest ih =>
    intro l u h
    by_cases hx : t.id = i
    · rcases t with ⟨tid, titem, tcomp⟩
      have hx2 : tid = i := hx
      subst hx2
      simp [toggle_complete] at h
      rcases h with ⟨h1, h2⟩
      rw [← h1, ← h2]
      simp [toggle_complete]
    · simp only [toggle_complete, if_neg hx] at h
      rcases hrec : toggle_complete rest i with _ | ⟨l', u'⟩
      · simp [hrec] at h
      · simp [hrec] at h
        rcases h with ⟨h1, h2⟩
        rw [← h1, ← h2]
        simp [toggle_complete, hx, ih l' u' hrec]

/-! ## Runs of successful creates -/

theorem run_creates (ts : List Todo) :
    ∀ s : List Todo, (∀ t ∈ ts, hasId s t.id = false) → (ts.map Todo.id).Nodup →
      run s (ts.map Req.create) = (s ++ ts, ts.map fun _ => 201) := by
  induction ts with
  | nil => intro s _ _; simp [run]
  | cons t rest ih =>
    intro s h hnodup
    have hs : hasId s t.id = false := h t (List.mem_cons_self t rest)
    have hnd : (∀ x ∈ rest, ¬x.id = t.id) ∧ (rest.map Todo.id).Nodup := by
      simpa using hnodup
    have hrest : ∀ t' ∈ rest, hasId (s ++ [t]) t'.id = false := by
      intro t' ht'
      rw [hasId_eq_false_iff]
      intro e he
      rcases List.mem_append.mp he with he | he
      · exact (hasId_eq_false_iff s t'.id).mp (h t' (List.mem_cons_of_mem t ht')) e he
      · have het : e = t := by simpa using he
        subst het
        intro hc
        exact hnd.1 t' ht' hc.symm
    have happ : apply s (Req.create t) = (s ++ [t], 201) := by
      simp [apply, create_todo, hs]
    simp only [List.map_cons, run, happ]
    rw [ih (s ++ [t]) hrest hnd.2]
    simp

end FastAPIApp

namespace FlaskApp

/-! ## Frame and success characterizations (Flask) -/

theorem flask_update_todo_frame (todos : List Todo) (i : Int) (d : UpdateBody) :
    ∀ l u, update_todo todos i d = some (l, u) →
      List.Forall₂ (fun t t2 => t2.id = t.id ∧ (t.id ≠ some i → t2 = t)) todos l := by
  induction todos with
  | nil => intro l u h; simp [update_todo] at h
  | cons t rest ih =>
    intro l u h
    by_cases hx : t.id = some i
    · simp [update_todo, hx] at h
      rcases h with ⟨h1, h2⟩
      rw [← h1]
      refine List.Forall₂.cons ⟨by simp [hx], fun hc => absurd hx hc⟩ ?_
      exact List.forall₂_same.mpr (fun x _ => ⟨rfl, fun _ => rfl⟩)
    · simp only [update_todo, if_neg hx] at h
      rcases hrec : update_todo rest i d with _ | ⟨l', u'⟩
      · simp [hrec] at h
      · simp [hrec] at h
        rcases h with ⟨h1, h2⟩
        rw [← h1]
        exact List.Forall₂.cons ⟨rfl, fun _ => rfl⟩ (ih l' u' hrec)

theorem flask_toggle_complete_frame (todos : List Todo) (i : Int) :
    ∀ l u, toggle_complete todos i = some (l, u) →
      List.Forall₂ (fun t t2 => t2.id = t.id ∧ (t.id ≠ some i → t2 = t)) todos l := by
  induction todos with
  | nil => intro l u h; simp [toggle_complete] at h
  | cons t rest ih =>
    intro l u h
    by_cases hx : t.id = some i
    · simp [toggle_complete, hx] at h
      rcases h with ⟨h1, h2⟩
      rw [← h1]
      refine List.Forall₂.cons ⟨by simp [hx], fun hc => absurd hx hc⟩ ?_
      exact List.forall₂_same.mpr (fun x _ => ⟨rfl, fun _ => rfl⟩)
    · simp only [toggle_complete, if_neg hx] at h
      rcases hrec : toggle_complete rest i with _ | ⟨l', u'⟩
      · simp [hrec] at h
      · simp [hrec] at h
        rcases h with ⟨h1, h2⟩
        rw [← h1]
        exact List.Forall₂.cons ⟨rfl, fun _ => rfl⟩ (ih l' u' hrec)

theorem flask_update_todo_of_get (todos : List Todo) (i : Int) (t0 : Todo)
    (h : get_todo todos i = some t0) (d : UpdateBody) :
    ∃ l, update_todo todos i d =
        some (l, { t0 with
          item := match d.item with
                  | some v => some v
                  | none => t0.item,
          completed := d.completed.getD t0.completed }) ∧
      { t0 with
        item := match d.item with
                | some v => some v
                | none => t0.item,
        completed := d.completed.getD t0.completed } ∈ l := by
  induction todos with
  | nil => simp [get_todo] at h
  | cons t rest ih =>
    by_cases hx : t.id = some i
    · simp [get_todo, hx] at h
      subst h
      refine ⟨{ t with
          item := match d.item with
                  | some v => some v
                  | none => t.item,
          completed := d.completed.getD t.completed } :: rest, ?_, ?_⟩
      · simp [update_todo, hx]
      · exact List.mem_cons_self _ _
    · simp [get_todo, hx] at h
      rcases ih h with ⟨l, hl, hmem⟩
      exact ⟨t :: l, by simp [update_todo, hx, hl], List.mem_cons_of_mem t hmem⟩

theorem flask_toggle_complete_of_get (todos : List Todo) (i : Int) (t0 : Todo)
    (h : get_todo todos i = some t0) :
    ∃ l, toggle_complete todos i = some (l, { t0 with completed := !t0.completed }) := by
  induction todos with
  | nil => simp [get_todo] at h
  | cons t rest ih =>
    by_cases hx : t.id = some i
    · simp [get_todo, hx] at h
      subst h
      exact ⟨{ t with completed := !t.completed } :: rest, by simp [toggle_complete, hx]⟩
    · simp [get_todo, hx] at h
      rcases ih h with ⟨l, hl⟩
      exact ⟨t :: l, by simp [toggle_complete, hx, hl]⟩

theorem flask_toggle_complete_twice (todos : List Todo) (i : Int) :
    ∀ l u, toggle_complete todos i = some (l, u) →
      toggle_complete l i = some (todos, { u with completed := !u.completed }) := by
  induction todos with
  | nil => intro l u h; simp [toggle_complete] at h
  | cons t rest ih =>
    intro l u h
    by_cases hx : t.id = some i
    · rcases t with ⟨tid, titem, tcomp⟩
      have hx2 : tid = some i := hx
      subst hx2
      simp [toggle_complete] at h
      rcases h with ⟨h1, h2⟩
      rw [← h1, ← h2]
      simp [toggle_complete]
    · simp only [toggle_complete, if_neg hx] at h
      rcases hrec : toggle_complete rest i with _ | ⟨l', u'⟩
      · simp [hrec] at h
      · simp [hrec] at h
        rcases h with ⟨h1, h2⟩
        rw [← h1, ← h2]
        simp [toggle_complete, hx, ih l' u' hrec]

/-! ## Runs of successful creates (Flask) -/

theorem flask_run_creates (ds : List CreateBody) :
    ∀ s : List Todo, (∀ d ∈ ds, hasId s d.id = false) → (ds.map CreateBody.id).Nodup →
      run s (ds.map Req.create) = (s ++ ds.map todoOfBody, ds.map fun _ => 201) := by
  induction ds with
  | nil => intro s _ _; simp [run]
  | cons d rest ih =>
    intro s h hnodup
    have hs : hasId s d.id = false := h d (List.mem_cons_self d rest)
    have hnd : (∀ x ∈ rest, ¬x.id = d.id) ∧ (rest.map CreateBody.id).Nodup := by
      simpa using hnodup
    have hrest : ∀ d' ∈ rest, hasId (s ++ [todoOfBody d]) d'.id = false := by
      intro d' hd'
      rw [flask_hasId_eq_false_iff]
      intro e he
      rcases List.mem_append.mp he with he | he
      · exact (flask_hasId_eq_false_iff s d'.id).mp (h d' (List.mem_cons_of_mem d hd')) e he
      · have het : e = todoOfBody d := by simpa using he
        subst het
        intro hc
        exact hnd.1 d' hd' (by simpa [todoOfBody] using hc.symm)
    have happ : apply s (Req.create d) = (s ++ [todoOfBody d], 201) := by
      simp [apply, create_todo, hs]
    simp only [List.map_cons, run, happ]
    rw [ih (s ++ [todoOfBody d]) hrest hnd.2]
    simp

end FlaskApp

/-! ## Claims -/

/-- C1: every store state reachable from the empty store by any sequence
of requests (create, update, toggle, delete, and reads) has pairwise
distinct todo ids, in both implementations: create rejects a colliding
id before appending, and update and toggle never modify the id field. -/
theorem claim_C1 (reqs : List FastAPIApp.Req) (freqs : List FlaskApp.Req) :
    (((FastAPIApp.run [] reqs).1).map FastAPIApp.Todo.id).Nodup ∧
    (((FlaskApp.run [] freqs).1).map FlaskApp.Todo.id).Nodup :=
  ⟨FastAPIApp.run_nodup reqs [] (by simp), FlaskApp.flask_run_nodup freqs [] (by simp)⟩

/-- C2 counterexample: the Flask update is a merge, not a full field
replacement.  The same update body, whose item field is absent, applied
to two stores that differ only in the stored item text, echoes two
different records: the updated item is taken from the old record, not
from the request body. -/
theorem claim_C2_counterexample :
    ¬ ((FlaskApp.update_todo [{ id := some 1, item := some "a", completed := false }] 1
          { id := some 1, item := none, completed := some true }).map (fun p => p.2) =
       (FlaskApp.update_todo [{ id := some 1, item := some "b", completed := false }] 1
          { id := some 1, item := none, completed := some true }).map (fun p => p.2)) := by
  simp [FlaskApp.update_todo]

/-- C2 (amended): when the store contains a record with the requested
id, update succeeds and echoes the stored updated record.  The FastAPI
update sets item and completed to exactly the body's values (its body
always carries both fields); the Flask update sets each field to the
body's value when the field is present and preserves the matching
record's old value when it is absent. -/
theorem claim_C2 (s : List FastAPIApp.Todo) (i : Int) (b : FastAPIApp.Todo)
    (t0 : FastAPIApp.Todo) (h : FastAPIApp.get_todo s i = some t0)
    (fs : List FlaskApp.Todo) (fi : Int) (d : FlaskApp.UpdateBody)
    (ft0 : FlaskApp.Todo) (h2 : FlaskApp.get_todo fs fi = some ft0) :
    (∃ l u, FastAPIApp.update_todo s i b = some (l, u) ∧
      u.item = b.item ∧ u.completed = b.completed ∧ u ∈ l) ∧
    (∃ l u, FlaskApp.update_todo fs fi d = some (l, u) ∧
      u.item = (match d.item with | some v => some v | none => ft0.item) ∧
      u.completed = d.completed.getD ft0.completed ∧ u ∈ l) := by
  constructor
  · obtain ⟨l, hl, hmem⟩ := FastAPIApp.update_todo_of_get s i t0 h b
    exact ⟨l, _, hl, rfl, rfl, hmem⟩
  · obtain ⟨l, hl, hmem⟩ := FlaskApp.flask_update_todo_of_get fs fi ft0 h2 d
    exact ⟨l, _, hl, rfl, rfl, hmem⟩

/-- C2 witness at a concrete store, path id and bodies. -/
theorem claim_C2_witness :
    FastAPIApp.get_todo [{ id := 1, item := "a", completed := false }] 1 =
        some { id := 1, item := "a", completed := false } ∧
    FlaskApp.get_todo [{ id := some 1, item := some "a", completed := false }] 1 =
        some { id := some 1, item := some "a", completed := false } ∧
    ((∃ l u, FastAPIApp.update_todo [{ id := 1, item := "a", completed := false }] 1
          { id := 9, item := "x", completed := true } = some (l, u) ∧
        u.item = ({ id := 9, item := "x", completed := true } : FastAPIApp.Todo).item ∧
        u.completed = ({ id := 9, item := "x", completed := true } : FastAPIApp.Todo).completed ∧
        u ∈ l) ∧
     (∃ l u, FlaskApp.update_todo [{ id := some 1, item := some "a", completed := false }] 1
          { id := some 1, item := none, completed := some true } = some (l, u) ∧
        u.item = (match ({ id := some 1, item := none, completed := some true } :
            FlaskApp.UpdateBody).item with
          | some v => some v
          | none => ({ id := some 1, item := some "a", completed := false } :
              FlaskApp.Todo).item) ∧
        u.completed = ({ id := some 1, item := none, completed := some true } :
            FlaskApp.UpdateBody).completed.getD
            ({ id := some 1, item := some "a", completed := false } :
              FlaskApp.Todo).completed ∧
        u ∈ l)) :=
  ⟨by simp [FastAPIApp.get_todo], by simp [FlaskApp.get_todo],
   claim_C2 [{ id := 1, item := "a", completed := false }] 1
     { id := 9, item := "x", completed := true }
     { id := 1, item := "a", completed := false } (by simp [FastAPIApp.get_todo])
     [{ id := some 1, item := some "a", completed := false }] 1
     { id := some 1, item := none, completed := some true }
     { id := some 1, item := some "a", completed := false } (by simp [FlaskApp.get_todo])⟩

/-- C3: on any request sequence with full todo bodies, the Flask
service, started on the image of the empty store, answers exactly the
same status codes as the FastAPI service and ends in the image of its
final store (so the two implementations are observably identical, the
delete success code included, which is 204 in both). -/
theorem claim_C3 (reqs : List FastAPIApp.Req) :
    FlaskApp.run [] (reqs.map reqToFlask) =
      (((FastAPIApp.run [] reqs).1).map todoToFlask, (FastAPIApp.run [] reqs).2) := by
  simpa using run_map reqs []

/-- C4: a create whose body id equals a stored record's id answers 400
and leaves the store exactly as it was, in both implementations. -/
theorem claim_C4 (s : List FastAPIApp.Todo) (t : FastAPIApp.Todo)
    (h : ∃ e ∈ s, e.id = t.id)
    (fs : List FlaskApp.Todo) (d : FlaskApp.CreateBody)
    (h2 : ∃ e ∈ fs, e.id = d.id) :
    FastAPIApp.apply s (FastAPIApp.Req.create t) = (s, 400) ∧
    FlaskApp.apply fs (FlaskApp.Req.create d) = (fs, 400) := by
  constructor
  · have hc : FastAPIApp.hasId s t.id = true := (FastAPIApp.hasId_iff s t.id).mpr h
    simp [FastAPIApp.apply, FastAPIApp.create_todo, hc]
  · have hc : FlaskApp.hasId fs d.id = true := (FlaskApp.flask_hasId_iff fs d.id).mpr h2
    simp [FlaskApp.apply, FlaskApp.create_todo, hc]

/-- C4 witness at a concrete store and colliding create bodies. -/
theorem claim_C4_witness :
    (∃ e ∈ [({ id := 1, item := "a", completed := false } : FastAPIApp.Todo)],
      FastAPIApp.Todo.id e = ({ id := 1, item := "b", completed := true } :
        FastAPIApp.Todo).id) ∧
    (∃ e ∈ [({ id := some 1, item := some "a", completed := false } : FlaskApp.Todo)],
      FlaskApp.Todo.id e = ({ id := some 1, item := some "b", completed := some true } :
        FlaskApp.CreateBody).id) ∧
    (FastAPIApp.apply [{ id := 1, item := "a", completed := false }]
        (FastAPIApp.Req.create { id := 1, item := "b", completed := true }) =
      ([{ id := 1, item := "a", completed := false }], 400) ∧
     FlaskApp.apply [{ id := some 1, item := some "a", completed := false }]
        (FlaskApp.Req.create { id := some 1, item := some "b", completed := some true }) =
      ([{ id := some 1, item := some "a", completed := false }], 400)) :=
  ⟨by decide, by decide, claim_C4 _ _ (by decide) _ _ (by decide)⟩

/-- C5: when no stored record has the requested id, get, update, toggle
and delete all answer 404 and leave the store exactly as it was, in
both implementations. -/
theorem claim_C5 (s : List FastAPIApp.Todo) (i : Int) (b : FastAPIApp.Todo)
    (h : ∀ t ∈ s, t.id ≠ i)
    (fs : List FlaskApp.Todo) (fi : Int) (d : FlaskApp.UpdateBody)
    (h2 : ∀ t ∈ fs, t.id ≠ some fi) :
    (FastAPIApp.apply s (FastAPIApp.Req.get i) = (s, 404) ∧
     FastAPIApp.apply s (FastAPIApp.Req.update i b) = (s, 404) ∧
     FastAPIApp.apply s (FastAPIApp.Req.toggle i) = (s, 404) ∧
     FastAPIApp.apply s (FastAPIApp.Req.delete i) = (s, 404)) ∧
    (FlaskApp.apply fs (FlaskApp.Req.get fi) = (fs, 404) ∧
     FlaskApp.apply fs (FlaskApp.Req.update fi d) = (fs, 404) ∧
     FlaskApp.apply fs (FlaskApp.Req.toggle fi) = (fs, 404) ∧
     FlaskApp.apply fs (FlaskApp.Req.delete fi) = (fs, 404)) := by
  have hg : FastAPIApp.get_todo s i = none := (FastAPIApp.get_todo_eq_none_iff s i).mpr h
  have hu : FastAPIApp.update_todo s i b = none :=
    (FastAPIApp.update_todo_eq_none_iff s i b).mpr hg
  have ht : FastAPIApp.toggle_complete s i = none :=
    (FastAPIApp.toggle_complete_eq_none_iff s i).mpr hg
  have hg2 : FlaskApp.get_todo fs fi = none := (FlaskApp.flask_get_todo_eq_none_iff fs fi).mpr h2
  have hu2 : FlaskApp.update_todo fs fi d = none :=
    (FlaskApp.flask_update_todo_eq_none_iff fs fi d).mpr hg2
  have ht2 : FlaskApp.toggle_complete fs fi = none :=
    (FlaskApp.flask_toggle_complete_eq_none_iff fs fi).mpr hg2
  refine ⟨⟨?_, ?_, ?_, ?_⟩, ?_, ?_, ?_, ?_⟩
  · simp [FastAPIApp.apply, hg]
  · simp [FastAPIApp.apply, hu]
  · simp [FastAPIApp.apply, ht]
  · simp [FastAPIApp.apply, FastAPIApp.delete_todo, hg]
  · simp [FlaskApp.apply, hg2]
  · simp [FlaskApp.apply, hu2]
  · simp [FlaskApp.apply, ht2]
  · simp [FlaskApp.apply, FlaskApp.delete_todo, hg2]

/-- C5 witness at a concrete store and a missing id. -/
theorem claim_C5_witness :
    (∀ t ∈ [({ id := 1, item := "a", completed := false } : FastAPIApp.Todo)],
      FastAPIApp.Todo.id t ≠ 2) ∧
    (∀ t ∈ [({ id := some 1, item := some "a", completed := false } : FlaskApp.Todo)],
      FlaskApp.Todo.id t ≠ some 2) ∧
    ((FastAPIApp.apply [{ id := 1, item := "a", completed := false }]
        (FastAPIApp.Req.get 2) = ([{ id := 1, item := "a", completed := false }], 404) ∧
      FastAPIApp.apply [{ id := 1, item := "a", completed := false }]
        (FastAPIApp.Req.update 2 { id := 2, item := "b", completed := true }) =
        ([{ id := 1, item := "a", completed := false }], 404) ∧
      FastAPIApp.apply [{ id := 1, item := "a", completed := false }]
        (FastAPIApp.Req.toggle 2) = ([{ id := 1, item := "a", completed := false }], 404) ∧
      FastAPIApp.apply [{ id := 1, item := "a", completed := false }]
        (FastAPIApp.Req.delete 2) = ([{ id := 1, item := "a", completed := false }], 404)) ∧
     (FlaskApp.apply [{ id := some 1, item := some "a", completed := false }]
        (FlaskApp.Req.get 2) =
        ([{ id := some 1, item := some "a", completed := false }], 404) ∧
      FlaskApp.apply [{ id := some 1, item := some "a", completed := false }]
        (FlaskApp.Req.update 2 { id := none, item := none, completed := none }) =
        ([{ id := some 1, item := some "a", completed := false }], 404) ∧
      FlaskApp.apply [{ id := some 1, item := some "a", completed := false }]
        (FlaskApp.Req.toggle 2) =
        ([{ id := some 1, item := some "a", completed := false }], 404) ∧
      FlaskApp.apply [{ id := some 1, item := some "a", completed := false }]
        (FlaskApp.Req.delete 2) =
        ([{ id := some 1, item := some "a", completed := false }], 404))) :=
  ⟨by decide, by decide,
   claim_C5 _ 2 { id := 2, item := "b", completed := true } (by decide)
     _ 2 { id := none, item := none, completed := none } (by decide)⟩

/-- C6: running any sequence of creates with pairwise distinct ids from
the empty store succeeds throughout (every request answers 201), and
the list operation then returns exactly the created todos in creation
order, in both implementations. -/
theorem claim_C6 (ts : List FastAPIApp.Todo) (h : (ts.map FastAPIApp.Todo.id).Nodup)
    (ds : List FlaskApp.CreateBody) (h2 : (ds.map FlaskApp.CreateBody.id).Nodup) :
    FastAPIApp.get_todos (FastAPIApp.run [] (ts.map FastAPIApp.Req.create)).1 = ts ∧
    (FastAPIApp.run [] (ts.map FastAPIApp.Req.create)).2 = ts.map (fun _ => 201) ∧
    FlaskApp.get_todos (FlaskApp.run [] (ds.map FlaskApp.Req.create)).1 =
      ds.map FlaskApp.todoOfBody ∧
    (FlaskApp.run [] (ds.map FlaskApp.Req.create)).2 = ds.map (fun _ => 201) := by
  have ha := FastAPIApp.run_creates ts [] (fun t _ => rfl) h
  have hb := FlaskApp.flask_run_creates ds [] (fun d _ => rfl) h2
  refine ⟨?_, ?_, ?_, ?_⟩ <;>
    simp [FastAPIApp.get_todos, FlaskApp.get_todos, ha, hb]

/-- C6 witness at two concrete creates per implementation. -/
theorem claim_C6_witness :
    (([{ id := 1, item := "a", completed := false },
       { id := 2, item := "b", completed := true }] :
        List FastAPIApp.Todo).map FastAPIApp.Todo.id).Nodup ∧
    (([{ id := some 1, item := some "a", completed := none },
       { id := none, item := none, completed := some true }] :
        List FlaskApp.CreateBody).map FlaskApp.CreateBody.id).Nodup ∧
    (FastAPIApp.get_todos (FastAPIApp.run []
        (([{ id := 1, item := "a", completed := false },
           { id := 2, item := "b", completed := true }] :
          List FastAPIApp.Todo).map FastAPIApp.Req.create)).1 =
      [{ id := 1, item := "a", completed := false },
       { id := 2, item := "b", completed := true }] ∧
     (FastAPIApp.run []
        (([{ id := 1, item := "a", completed := false },
           { id := 2, item := "b", completed := true }] :
          List FastAPIApp.Todo).map FastAPIApp.Req.create)).2 =
      ([{ id := 1, item := "a", completed := false },
        { id := 2, item := "b", completed := true }] :
        List FastAPIApp.Todo).map (fun _ => 201) ∧
     FlaskApp.get_todos (FlaskApp.run []
        (([{ id := some 1, item := some "a", completed := none },
           { id := none, item := none, completed := some true }] :
          List FlaskApp.CreateBody).map FlaskApp.Req.create)).1 =
      ([{ id := some 1, item := some "a", completed := none },
        { id := none, item := none, completed := some true }] :
        List FlaskApp.CreateBody).map FlaskApp.todoOfBody ∧
     (FlaskApp.run []
        (([{ id := some 1, item := some "a", completed := none },
           { id := none, item := none, completed := some true }] :
          List FlaskApp.CreateBody).map FlaskApp.Req.create)).2 =
      ([{ id := some 1, item := some "a", completed := none },
        { id := none, item := none, completed := some true }] :
        List FlaskApp.CreateBody).map (fun _ => 201)) :=
  ⟨by decide, by decide, claim_C6 _ (by decide) _ (by decide)⟩

/-- C7: when the store contains a record with the requested id, toggle
succeeds and echoes the record with completed inverted, and a second
toggle on the result restores exactly the original store and echoes the
record with its original completed flag, in both implementations. -/
theorem claim_C7 (s : List FastAPIApp.Todo) (i : Int) (t0 : FastAPIApp.Todo)
    (h : FastAPIApp.get_todo s i = some t0)
    (fs : List FlaskApp.Todo) (fi : Int) (ft0 : FlaskApp.Todo)
    (h2 : FlaskApp.get_todo fs fi = some ft0) :
    (∃ l, FastAPIApp.toggle_complete s i =
        some (l, { t0 with completed := !t0.completed }) ∧
      FastAPIApp.toggle_complete l i = some (s, t0)) ∧
    (∃ l, FlaskApp.toggle_complete fs fi =
        some (l, { ft0 with completed := !ft0.completed }) ∧
      FlaskApp.toggle_complete l fi = some (fs, ft0)) := by
  constructor
  · obtain ⟨l, hl⟩ := FastAPIApp.toggle_complete_of_get s i t0 h
    refine ⟨l, hl, ?_⟩
    have h3 := FastAPIApp.toggle_complete_twice s i l _ hl
    rcases t0 with ⟨tid, titem, tcomp⟩
    simpa using h3
  · obtain ⟨l, hl⟩ := FlaskApp.flask_toggle_complete_of_get fs fi ft0 h2
    refine ⟨l, hl, ?_⟩
    have h3 := FlaskApp.flask_toggle_complete_twice fs fi l _ hl
    rcases ft0 with ⟨tid, titem, tcomp⟩
    simpa using h3

/-- C7 witness at a concrete one-record store per implementation. -/
theorem claim_C7_witness :
    FastAPIApp.get_todo [{ id := 1, item := "a", completed := false }] 1 =
      some { id := 1, item := "a", completed := false } ∧
    FlaskApp.get_todo [{ id := some 1, item := some "a", completed := true }] 1 =
      some { id := some 1, item := some "a", completed := true } ∧
    ((∃ l, FastAPIApp.toggle_complete [{ id := 1, item := "a", completed := false }] 1 =
        some (l, { ({ id := 1, item := "a", completed := false } : FastAPIApp.Todo) with
          completed := !({ id := 1, item := "a", completed := false } :
            FastAPIApp.Todo).completed }) ∧
      FastAPIApp.toggle_complete l 1 =
        some ([{ id := 1, item := "a", completed := false }],
          { id := 1, item := "a", completed := false })) ∧
     (∃ l, FlaskApp.toggle_complete [{ id := some 1, item := some "a", completed := true }] 1 =
        some (l, { ({ id := some 1, item := some "a", completed := true } : FlaskApp.Todo) with
          completed := !({ id := some 1, item := some "a", completed := true } :
            FlaskApp.Todo).completed }) ∧
      FlaskApp.toggle_complete l 1 =
        some ([{ id := some 1, item := some "a", completed := true }],
          { id := some 1, item := some "a", completed := true }))) :=
  ⟨by decide, by decide, claim_C7 _ 1 _ (by decide) _ 1 _ (by decide)⟩

/-- C8: a todo's id is immutable and update and toggle have no effect
outside the matching record: for every store, path id and request body
(whatever id the body carries), the store after an update or a toggle
is positionwise id-identical to the store before it, and every record
whose id differs from the path id is completely unchanged, in both
implementations (on failure the store is untouched). -/
theorem claim_C8 (s : List FastAPIApp.Todo) (i : Int) (b : FastAPIApp.Todo)
    (fs : List FlaskApp.Todo) (fi : Int) (d : FlaskApp.UpdateBody) :
    List.Forall₂ (fun t t2 => t2.id = t.id ∧ (t.id ≠ i → t2 = t)) s
      (FastAPIApp.apply s (FastAPIApp.Req.update i b)).1 ∧
    List.Forall₂ (fun t t2 => t2.id = t.id ∧ (t.id ≠ i → t2 = t)) s
      (FastAPIApp.apply s (FastAPIApp.Req.toggle i)).1 ∧
    List.Forall₂ (fun t t2 => t2.id = t.id ∧ (t.id ≠ some fi → t2 = t)) fs
      (FlaskApp.apply fs (FlaskApp.Req.update fi d)).1 ∧
    List.Forall₂ (fun t t2 => t2.id = t.id ∧ (t.id ≠ some fi → t2 = t)) fs
      (FlaskApp.apply fs (FlaskApp.Req.toggle fi)).1 := by
  refine ⟨?_, ?_, ?_, ?_⟩
  · rcases hu : FastAPIApp.update_todo s i b with _ | ⟨l, u⟩
    · simp only [FastAPIApp.apply, hu]
      exact List.forall₂_same.mpr (fun x (_ : x ∈ s) => ⟨rfl, fun _ => rfl⟩)
    · simpa [FastAPIApp.apply, hu] using FastAPIApp.update_todo_frame s i b l u hu
  · rcases ht : FastAPIApp.toggle_complete s i with _ | ⟨l, u⟩
    · simp only [FastAPIApp.apply, ht]
      exact List.forall₂_same.mpr (fun x (_ : x ∈ s) => ⟨rfl, fun _ => rfl⟩)
    · simpa [FastAPIApp.apply, ht] using FastAPIApp.toggle_complete_frame s i l u ht
  · rcases hu : FlaskApp.update_todo fs fi d with _ | ⟨l, u⟩
    · simp only [FlaskApp.apply, hu]
      exact List.forall₂_same.mpr (fun x (_ : x ∈ fs) => ⟨rfl, fun _ => rfl⟩)
    · simpa [FlaskApp.apply, hu] using FlaskApp.flask_update_todo_frame fs fi d l u hu
  · rcases ht : FlaskApp.toggle_complete fs fi with _ | ⟨l, u⟩
    · simp only [FlaskApp.apply, ht]
      exact List.forall₂_same.mpr (fun x (_ : x ∈ fs) => ⟨rfl, fun _ => rfl⟩)
    · simpa [FlaskApp.apply, ht] using FlaskApp.flask_toggle_complete_frame fs fi l u ht

/-- C9: for a non-empty sample list and a positive run duration, the
summary's throughput times the duration gives back the total sample
count, its average response time is the arithmetic mean of the recorded
response times, and its total request count is the sum of the
successful count and the failed count (the failed count being exactly
the number of samples whose success flag is unset). -/
theorem claim_C9 (metrics : List Locustfile.Metric) (test_duration : ℚ)
    (h : metrics ≠ []) (h2 : 0 < test_duration) :
    (Locustfile.print_summary metrics test_duration).throughput * test_duration =
      (metrics.length : ℚ) ∧
    (Locustfile.print_summary metrics test_duration).averageResponseTime =
      (metrics.map (fun m => m.response_time)).sum / (metrics.length : ℚ) ∧
    (Locustfile.print_summary metrics test_duration).totalRequests =
      (Locustfile.print_summary metrics test_duration).successfulRequests +
        (Locustfile.print_summary metrics test_duration).failedRequests ∧
    (Locustfile.print_summary metrics test_duration).failedRequests =
      (metrics.filter (fun m => !m.success)).length := by
  refine ⟨?_, ?_, ?_, ?_⟩
  · rw [Locustfile.print_summary]
    exact div_mul_cancel₀ _ (ne_of_gt h2)
  · rw [Locustfile.print_summary]
    simp
  · rw [Locustfile.print_summary]
    simp only []
    rw [Nat.add_sub_cancel' (List.length_filter_le _ metrics)]
  · rw [Locustfile.print_summary]
    simp only []
    rw [List.length_eq_length_filter_add (fun m => m.success) (l := metrics)]
    simp

/-- C9 witness at a concrete two-sample run. -/
theorem claim_C9_witness :
    ([({ request_type := "GET", name := "/todos", response_time := 5,
         response_length := 10, response_code := 200, concurrent_users := 1,
         success := true } : Locustfile.Metric),
      { request_type := "POST", name := "/todos", response_time := 7,
        response_length := 0, response_code := 400, concurrent_users := 1,
        success := false }] : List Locustfile.Metric) ≠ [] ∧
    (0 : ℚ) < 2 ∧
    ((Locustfile.print_summary
        [{ request_type := "GET", name := "/todos", response_time := 5,
           response_length := 10, response_code := 200, concurrent_users := 1,
           success := true },
         { request_type := "POST", name := "/todos", response_time := 7,
           response_length := 0, response_code := 400, concurrent_users := 1,
           success := false }] 2).throughput * 2 =
      (([({ request_type := "GET", name := "/todos", response_time := 5,
            response_length := 10, response_code := 200, concurrent_users := 1,
            success := true } : Locustfile.Metric),
         { request_type := "POST", name := "/todos", response_time := 7,
           response_length := 0, response_code := 400, concurrent_users := 1,
           success := false }] : List Locustfile.Metric).length : ℚ) ∧
     (Locustfile.print_summary
        [{ request_type := "GET", name := "/todos", response_time := 5,
           response_length := 10, response_code := 200, concurrent_users := 1,
           success := true },
         { request_type := "POST", name := "/todos", response_time := 7,
           response_length := 0, response_code := 400, concurrent_users := 1,
           success := false }] 2).averageResponseTime =
      (([({ request_type := "GET", name := "/todos", response_time := 5,
            response_length := 10, response_code := 200, concurrent_users := 1,
            success := true } : Locustfile.Metric),
         { request_type := "POST", name := "/todos", response_time := 7,
           response_length := 0, response_code := 400, concurrent_users := 1,
           success := false }] : List Locustfile.Metric).map
          (fun m => m.response_time)).sum /
        (([({ request_type := "GET", name := "/todos", response_time := 5,
              response_length := 10, response_code := 200, concurrent_users := 1,
              success := true } : Locustfile.Metric),
           { request_type := "POST", name := "/todos", response_time := 7,
             response_length := 0, response_code := 400, concurrent_users := 1,
             success := false }] : List Locustfile.Metric).length : ℚ) ∧
     (Locustfile.print_summary
        [{ request_type := "GET", name := "/todos", response_time := 5,
           response_length := 10, response_code := 200, concurrent_users := 1,
           success := true },
         { request_type := "POST", name := "/todos", response_time := 7,
           response_length := 0, response_code := 400, concurrent_users := 1,
           success := false }] 2).totalRequests =
      (Locustfile.print_summary
        [{ request_type := "GET", name := "/todos", response_time := 5,
           response_length := 10, response_code := 200, concurrent_users := 1,
           success := true },
         { request_type := "POST", name := "/todos", response_time := 7,
           response_length := 0, response_code := 400, concurrent_users := 1,
           success := false }] 2).successfulRequests +
        (Locustfile.print_summary
          [{ request_type := "GET", name := "/todos", response_time := 5,
             response_length := 10, response_code := 200, concurrent_users := 1,
             success := true },
           { request_type := "POST", name := "/todos", response_time := 7,
             response_length := 0, response_code := 400, concurrent_users := 1,
             success := false }] 2).failedRequests ∧
     (Locustfile.print_summary
        [{ request_type := "GET", name := "/todos", response_time := 5,
           response_length := 10, response_code := 200, concurrent_users := 1,
           success := true },
         { request_type := "POST", name := "/todos", response_time := 7,
           response_length := 0, response_code := 400, concurrent_users := 1,
           success := false }] 2).failedRequests =
      (([({ request_type := "GET", name := "/todos", response_time := 5,
            response_length := 10, response_code := 200, concurrent_users := 1,
            success := true } : Locustfile.Metric),
         { request_type := "POST", name := "/todos", response_time := 7,
           response_length := 0, response_code := 400, concurrent_users := 1,
           success := false }] : List Locustfile.Metric).filter
          (fun m => !m.success)).length) :=
  ⟨by simp, by norm_num, claim_C9 _ 2 (by simp) (by norm_num)⟩

/-- C10: the Flask create performs no presence validation.  Against any
store none of whose records has a null id, a create whose body omits
the id field answers 201 and appends a record whose id is null (item
null when omitted, completed defaulting to false); a second create with
an id-omitting body against the resulting store answers 400 and changes
nothing, because null equals null. -/
theorem claim_C10 (fs : List FlaskApp.Todo) (h : ∀ t ∈ fs, t.id ≠ none)
    (d d2 : FlaskApp.CreateBody) (hd : d.id = none) (hd2 : d2.id = none) :
    FlaskApp.apply fs (FlaskApp.Req.create d) =
      (fs ++ [{ id := none, item := d.item, completed := d.completed.getD false }], 201) ∧
    FlaskApp.apply (fs ++ [{ id := none, item := d.item, completed := d.completed.getD false }])
        (FlaskApp.Req.create d2) =
      (fs ++ [{ id := none, item := d.item, completed := d.completed.getD false }], 400) := by
  have hc : FlaskApp.hasId fs d.id = false := by
    rw [FlaskApp.flask_hasId_eq_false_iff]
    intro t ht
    rw [hd]
    exact h t ht
  rw [hd] at hc
  constructor
  · simp [FlaskApp.apply, FlaskApp.create_todo, hc, FlaskApp.todoOfBody, hd]
  · have hc2 : FlaskApp.hasId
        (fs ++ [{ id := none, item := d.item, completed := d.completed.getD false }])
        d2.id = true := by
      rw [FlaskApp.flask_hasId_iff]
      exact ⟨_, List.mem_append_right fs (List.mem_cons_self _ _), hd2.symm⟩
    simp [FlaskApp.apply, FlaskApp.create_todo, hc2]

/-- C10 witness: two id-less creates against the empty store. -/
theorem claim_C10_witness :
    (∀ t ∈ ([] : List FlaskApp.Todo), FlaskApp.Todo.id t ≠ none) ∧
    ({ id := none, item := none, completed := none } : FlaskApp.CreateBody).id = none ∧
    ({ id := none, item := some "x", completed := some true } :
      FlaskApp.CreateBody).id = none ∧
    (FlaskApp.apply [] (FlaskApp.Req.create { id := none, item := none, completed := none }) =
      ([{ id := none, item := none, completed := false }], 201) ∧
     FlaskApp.apply [{ id := none, item := none, completed := false }]
        (FlaskApp.Req.create { id := none, item := some "x", completed := some true }) =
      ([{ id := none, item := none, completed := false }], 400)) :=
  ⟨by simp, rfl, rfl, claim_C10 [] (by simp) _ _ rfl rfl⟩
